import Mathlib

/-!
# Verification of the pooled-staking process runner against its specification

Shallow embedding of the adaptive batch-submission controller found in
`src/index.js`, `src/gas-price.js`, `src/utils.js` and the two historical
variants of the loop (`unnamed/part_000`, `unnamed/part_001`).

Conventions:
* Fallible JS calls (`await` points that may throw) are embedded as
  `Except String α`, the `String` being the thrown error's message.
* The sizer's `while (true)` loop is not structurally terminating (halving
  `0` yields `0` again), so it is embedded with an explicit fuel parameter;
  `none` means the loop was still running after `fuel` probes, so a result
  that is `none` at every fuel is a non-terminating run.
* JS numbers that only ever hold integer values (gas, nonces, prices in wei)
  are `Nat`; values that can be fractional (gwei-level prices obtained by
  division by 10) are `ℚ`.
-/

namespace PooledStaking

/-! ## JS string containment: `e.message.includes(pat)` -/

/-- `pat` occurs as a contiguous run inside the second list. -/
def charListIncludes (pat : List Char) : List Char → Bool
  | [] => pat.isEmpty
  | c :: rest => pat.isPrefixOf (c :: rest) || charListIncludes pat rest

/-- JS `s.includes(pat)`: true iff `pat` occurs in `s`. -/
def strIncludes (s pat : String) : Bool :=
  charListIncludes pat.toList s.toList

/-- The substring tested at src/index.js line 82 to recognise the
budget-exceeded signal coming back from `estimateGas`. -/
def baseFeeExceedsMsg : String := "base fee exceeds gas limit"

/-! ## Batch sizer: `getGasEstimateAndIterations` (src/index.js lines 74-96,
identical in part_000 lines 98-120 and part_001 lines 90-112) -/

/-- The `{gasEstimate, iterations}` object returned by the sizer. -/
structure SizedBatch where
  gasEstimate : Nat
  iterations : Nat
deriving DecidableEq

/-- The `while (true)` body of `getGasEstimateAndIterations`, fueled.
`estimate its maxGas` embeds
`pooledStaking.processPendingActions.estimateGas(its, { gas: maxGas })`.
On `.ok` return `{gasEstimate, iterations}`; on an error whose message
contains `'base fee exceeds gas limit'`, halve (`Math.floor(iterations/2)`,
which is `Nat` division) and retry; any other error is rethrown.  `none`
means the loop had not produced anything after `fuel` probes. -/
def sizeLoop (estimate : Nat → Nat → Except String Nat) (maxGas : Nat) :
    Nat → Nat → Option (Except String SizedBatch)
  | 0, _ => none
  | fuel + 1, iterations =>
    match estimate iterations maxGas with
    | .ok gasEstimate => some (.ok ⟨gasEstimate, iterations⟩)
    | .error e =>
      if strIncludes e baseFeeExceedsMsg then
        sizeLoop estimate maxGas fuel (iterations / 2)
      else
        some (.error e)

/-- `getGasEstimateAndIterations(pooledStaking, defaultIterations, maxGas)`:
runs the halving loop starting from `defaultIterations`. -/
def getGasEstimateAndIterations (estimate : Nat → Nat → Except String Nat)
    (defaultIterations maxGas fuel : Nat) : Option (Except String SizedBatch) :=
  sizeLoop estimate maxGas fuel defaultIterations

/-! ## One cycle of the current loop (src/index.js lines 40-71)

The body of `while (true) { try { ... } catch (e) { log; sleep } }`.  The
remote collaborators reached through `await` are gathered in `Env`; each is
an `Except` describing whether that call returns or throws this cycle. -/

/-- The collaborator calls made by one cycle of the current loop.
`estimate` is `processPendingActions.estimateGas(iterations, {gas})`;
`processPendingActions its gas gasPrice nonce` is the submission and yields
`tx.receipt.gasUsed` on success. -/
structure Env where
  hasPendingActions : Except String Bool
  estimate : Nat → Nat → Except String Nat
  getGasPrice : Except String Nat
  getTransactionCount : Except String Nat
  processPendingActions : Nat → Nat → Nat → Nat → Except String Nat

/-- Arguments of one `pooledStaking.processPendingActions(iterations, {gas,
gasPrice, nonce})` call. -/
structure SubmitCall where
  iterations : Nat
  gas : Nat
  gasPrice : Nat
  nonce : Nat
deriving DecidableEq

/-- Which terminal branch of the cycle body was taken. -/
inductive CycleOutcome where
  | idle
  | skipped
  | submitted (gasUsed : Nat)
  | failed (e : String)
deriving DecidableEq

/-- What one cycle did: the branch taken, every submission call issued, and
whether the cycle ended in `sleep(POLL_INTERVAL_MILLIS)` before the next
iteration of the loop. -/
structure CycleResult where
  outcome : CycleOutcome
  submitCalls : List SubmitCall
  slept : Bool
deriving DecidableEq

/-- `Math.floor(gasEstimate * 1.1)` (src/index.js line 58).  For every gas
value below 2^49 the double product `g * 1.1` floors to `⌊11g/10⌋` (the
relative error of the rounded constant 1.1 is under half an ulp of the
product), so the integer form is used. -/
def increasedGasEstimate (gasEstimate : Nat) : Nat :=
  gasEstimate * 11 / 10

/-- One cycle of the current loop.  Any collaborator throw lands in the
`catch`, which logs and sleeps; a price above `MAX_GAS_PRICE` warns, sleeps
and continues; a missing pending flag sleeps and continues; a successful
submission continues immediately with no sleep.  `none` propagates the
sizer's fuel exhaustion (the sizer still looping). -/
def runCycle (env : Env) (defaultIterations maxGas maxGasPrice fuel : Nat) :
    Option CycleResult :=
  match env.hasPendingActions with
  | .error e => some ⟨.failed e, [], true⟩
  | .ok false => some ⟨.idle, [], true⟩
  | .ok true =>
    match getGasEstimateAndIterations env.estimate defaultIterations maxGas fuel with
    | none => none
    | some (.error e) => some ⟨.failed e, [], true⟩
    | some (.ok batch) =>
      match env.getGasPrice with
      | .error e => some ⟨.failed e, [], true⟩
      | .ok gasPrice =>
        if maxGasPrice < gasPrice then
          some ⟨.skipped, [], true⟩
        else
          match env.getTransactionCount with
          | .error e => some ⟨.failed e, [], true⟩
          | .ok nonce =>
            let call : SubmitCall :=
              ⟨batch.iterations, increasedGasEstimate batch.gasEstimate, gasPrice, nonce⟩
            match env.processPendingActions batch.iterations call.gas call.gasPrice call.nonce with
            | .error e => some ⟨.failed e, [call], true⟩
            | .ok gasUsed => some ⟨.submitted gasUsed, [call], false⟩

/-! ## One cycle of the historical loop (src/index.js lines 192-223,
second document of the file) -/

/-- An entry of `tx.logs`: the event name and its `args.finished` field. -/
structure TxLog where
  event : String
  finished : Bool
deriving DecidableEq

/-- `PENDING_ACTIONS_PROCESSED_EVENT` (line 111). -/
def pendingActionsProcessedEvent : String := "PendingActionsProcessed"

/-- `tx.logs.filter(log => log.event === PENDING_ACTIONS_PROCESSED_EVENT)[0]`. -/
def findPendingActionsEvent (logs : List TxLog) : Option TxLog :=
  (logs.filter (fun l => l.event == pendingActionsProcessedEvent)).head?

/-- Collaborator calls of one historical-loop cycle.  The cycle queries
`pooledStaking.hasPendingActions()` at most twice (in the idle branch and in
the `catch` handler), so two slots are provided: `predicate1` answers the
first query of the cycle, `predicate2` the second. -/
structure OldEnv where
  estimateGas : Except String Nat
  getGasPrice : Except String Nat
  submit : Nat → Nat → Except String (List TxLog)
  predicate1 : Except String Bool
  predicate2 : Except String Bool

/-- Result of one historical-loop cycle: either the next value of the
`hasPendingActions` flag together with how many predicate queries and
submission calls the cycle made and whether it slept, or `crashed` when an
error escaped the `try`/`catch` entirely (the loop then exits, `init()`
rejects, and lines 227-231 run `process.exit(1)`). -/
inductive OldStep where
  | next (hasPendingActions : Bool) (predicateCalls submitCalls : Nat) (slept : Bool)
  | crashed (e : String)
deriving DecidableEq

/-- The `catch` handler (lines 218-222): log, sleep, then
`hasPendingActions = await pooledStaking.hasPendingActions()`.  This trailing
query is not in any `try`, so its own failure escapes the loop. -/
def oldCatch (query : Except String Bool) (predicateCallsBefore submitCalls : Nat) :
    OldStep :=
  match query with
  | .ok b => .next b (predicateCallsBefore + 1) submitCalls true
  | .error e => .crashed e

/-- One cycle of the historical loop, from the current flag value. -/
def oldCycle (env : OldEnv) (hasPendingActions : Bool) : OldStep :=
  if hasPendingActions then
    match env.estimateGas with
    | .error _ => oldCatch env.predicate1 0 0
    | .ok gasEstimate =>
      match env.getGasPrice with
      | .error _ => oldCatch env.predicate1 0 0
      | .ok gasPrice =>
        match env.submit gasEstimate gasPrice with
        | .error _ => oldCatch env.predicate1 0 1
        | .ok logs =>
          match findPendingActionsEvent logs with
          | none => .next true 0 1 false
          | some ev => .next (!ev.finished) 0 1 false
  else
    match env.predicate1 with
    | .ok b => .next b 1 0 true
    | .error _ => oldCatch env.predicate2 1 0

/-- Predicate-query count of a surviving step. -/
def OldStep.predCalls : OldStep → Option Nat
  | .next _ p _ _ => some p
  | .crashed _ => none

/-! ## Price aggregator, first document of src/gas-price.js (the one
exported to src/index.js) -/

/-- `GWEI_IN_WEI = 1e9` (src/gas-price.js line 13), as a rational. -/
def gweiInWei : ℚ := 10 ^ 9

/-- The per-level price table `{fastest, fast, standard, safeLow}`. -/
structure GasPrices where
  fastest : ℚ
  fast : ℚ
  standard : ℚ
  safeLow : ℚ
deriving DecidableEq

/-- Payload of the primary (GasNow) source: `{rapid, fast, standard, slow}`
in wei, plus the response `code`. -/
structure GasNowResp where
  rapid : ℚ
  fast : ℚ
  standard : ℚ
  slow : ℚ
  code : Nat

/-- Payload of the fallback (EthGasStation) source, in tenths of gwei. -/
structure EgsData where
  fastest : ℚ
  fast : ℚ
  average : ℚ
  safeLow : ℚ

/-- A price-fetch run: how many times each source was contacted and the
value produced or the message thrown. -/
structure FetchTrace (α : Type) where
  primaryCalls : Nat
  fallbackCalls : Nat
  result : Except String α

/-- The module scope of the first document of src/gas-price.js binds
`SPEED`, `GWEI_IN_WEI`, `ETHERCHAIN_URL` and `ETHGASSTATION_URL` (lines
5-15) besides the requires and the three functions; `GASNOW_URL`, which
line 23 of `fetchGasPrices` reads, is bound nowhere in the module, so that
read is a `ReferenceError`. -/
def gasNowUrl : Option String := none

/-- `fetchGasPrices` (src/gas-price.js lines 21-49).  Its first statement
evaluates `fetch(GASNOW_URL)`: looking up the unbound `GASNOW_URL` throws
`ReferenceError` inside the async function before either source is
contacted (independently, `to` is destructured from utils.js, which does
not export it).  The branch below the lookup embeds lines 23-48 as they
would run were the name bound and `to` the usual `[result, error]`
wrapper: primary success with `code === 200` divides the wei figures by
`GWEI_IN_WEI`; any other primary outcome falls back to EthGasStation,
whose figures are divided by 10; a fallback failure throws
`'Gas price fetching failed'`. -/
def fetchGasPrices (primary : Except String GasNowResp)
    (fallback : Except String EgsData) : FetchTrace GasPrices :=
  match gasNowUrl with
  | none => ⟨0, 0, .error "ReferenceError: GASNOW_URL is not defined"⟩
  | some _ =>
    match primary with
    | .ok resp =>
      if resp.code = 200 then
        ⟨1, 0, .ok ⟨resp.rapid / gweiInWei, resp.fast / gweiInWei,
                    resp.standard / gweiInWei, resp.slow / gweiInWei⟩⟩
      else
        -- line 34 reads `ecError.stack` with `ecError` null: TypeError,
        -- thrown before the fallback request is issued
        ⟨1, 0, .error "TypeError: ecError is null"⟩
    | .error _ =>
      match fallback with
      | .ok egs =>
        ⟨1, 1, .ok ⟨egs.fastest / 10, egs.fast / 10, egs.average / 10,
                    egs.safeLow / 10⟩⟩
      | .error _ => ⟨1, 1, .error "Gas price fetching failed"⟩

/-- `getAboveStandardPrice` (src/gas-price.js lines 69-71 and 131-133):
`Math.floor((prices.fast + prices.standard)) / 2`. -/
def getAboveStandardPrice (prices : GasPrices) : ℚ :=
  (Rat.floor (prices.fast + prices.standard) : ℚ) / 2

/-- Modelled from the spec: the formula the spec gives for the derived
"above-standard" level, `floor((fast + standard)) / 2` — the floor taken of
the sum, then the division by 2. -/
def aboveStandardSpecFormula (fast standard : ℚ) : ℚ :=
  (Int.floor (fast + standard) : ℚ) / 2

/-! ## `getGasPrice` of unnamed/part_000 (lines 9-34) -/

/-- The JS literal `10e9` from part_000 line 9, i.e. 10 × 10^9 = 10^10.
The constant is named `GWEI_IN_WEI` in that file even though one gwei is
10^9 wei (the constant of the same name in src/index.js line 9 and
src/gas-price.js line 13 is `1e9`). -/
def gweiInWeiPart000 : ℚ := 10 * 10 ^ 9

/-- Etherchain payload fields read by part_000 (numeric values; a falsy
field — 0 here — makes the extraction throw into the catch). -/
structure EtherchainData where
  fast : ℚ
  standard : ℚ

/-- `parseInt` on the nonnegative numeric gas figures: truncation, which is
the floor for nonnegative arguments (the only ones the oracles emit). -/
def parseIntQ (q : ℚ) : Int := Rat.floor q

/-- `getGasPrice` of part_000 (lines 11-34): try etherchain — a fetch error
or a falsy `fast`/`standard` throws into the catch, which tries
EthGasStation (its own failures propagate) — then return
`((Math.floor((fast + standard)) / 2) * GWEI_IN_WEI).toString()`, with
`GWEI_IN_WEI` the `10e9` literal.  The numeric value of the returned string
is modelled. -/
def getGasPricePart000 (etherchain : Except String EtherchainData)
    (ethgasstation : Except String EgsData) : Except String ℚ :=
  let fastStandard : Except String (ℚ × ℚ) :=
    match etherchain with
    | .ok d =>
      if d.fast = 0 ∨ d.standard = 0 then
        .error "Failed to extract gas values from etherchain response"
      else
        .ok ((parseIntQ d.fast : ℚ), (parseIntQ d.standard : ℚ))
    | .error e => .error e
  match fastStandard with
  | .ok (fast, standard) =>
    .ok ((Rat.floor (fast + standard) : ℚ) / 2 * gweiInWeiPart000)
  | .error _ =>
    match ethgasstation with
    | .ok d =>
      if d.fast = 0 ∨ d.average = 0 then
        .error "Failed to extract gas values from ethgasstation response"
      else
        .ok ((Rat.floor (d.fast / 10 + d.average / 10) : ℚ) / 2 * gweiInWeiPart000)
    | .error e => .error e

/-! ## `getEnv` (src/utils.js lines 4-13) -/

/-- The JS values that flow through `getEnv`: `process.env[key]` is a string
or `undefined`; the fallback defaults to `false`. -/
inductive JSVal where
  | undef
  | bool (b : Bool)
  | str (s : String)
deriving DecidableEq

/-- JS truthiness for the values above: `undefined` and `false` are falsy,
a string is falsy exactly when empty. -/
def truthy : JSVal → Bool
  | .undef => false
  | .bool b => b
  | .str s => !s.isEmpty

/-- `getEnv(key, fallback = false)`:
`const value = process.env[key] || fallback; if (!value) throw new
Error(`Missing env var: ${key}`); return value;`.  `env` is the process
environment; `fallback` must be passed explicitly (`.bool false` at the
call sites that omit it). -/
def getEnv (env : String → JSVal) (key : String) (fallback : JSVal) :
    Except String JSVal :=
  let value := if truthy (env key) then env key else fallback
  if truthy value then .ok value
  else .error ("Missing env var: " ++ key)

/-! ## Helper lemmas -/

/-- `Rat.floor` (the executable floor the embeddings use) agrees with the
mathematical floor `⌊·⌋`. -/
theorem ratFloor_eq_floor (q : ℚ) : (Rat.floor q : ℤ) = ⌊q⌋ := by
  rw [Rat.floor_def, Rat.floor_def']

/-- An estimation result that the sizer's `catch` treats as the
budget-exceeded signal: a thrown error whose message contains
`'base fee exceeds gas limit'`. -/
def isBudgetExceededResult (r : Except String Nat) : Prop :=
  ∃ e, r = .error e ∧ strIncludes e baseFeeExceedsMsg = true

/-- If the halving sequence meets a successful estimate at step `k`, the
loop returns it at that step, whatever larger fuel it is given. -/
theorem sizeLoop_ok_of_halvings (estimate : Nat → Nat → Except String Nat) (maxGas : Nat) :
    ∀ (k start cost : Nat),
      (∀ j, j < k → isBudgetExceededResult (estimate (start / 2 ^ j) maxGas)) →
      estimate (start / 2 ^ k) maxGas = .ok cost →
      ∀ fuel, k < fuel →
        sizeLoop estimate maxGas fuel start = some (.ok ⟨cost, start / 2 ^ k⟩) := by
  intro k
  induction k with
  | zero =>
    intro start cost _ hok fuel hf
    match fuel, hf with
    | f + 1, _ =>
      rw [pow_zero, Nat.div_one] at hok
      simp [sizeLoop, hok, pow_zero, Nat.div_one]
  | succ k ih =>
    intro start cost hb hok fuel hf
    match fuel, hf with
    | f + 1, hf =>
      obtain ⟨e, he, hinc⟩ := hb 0 (Nat.succ_pos k)
      rw [pow_zero, Nat.div_one] at he
      have hdiv : ∀ j, start / 2 / 2 ^ j = start / 2 ^ (j + 1) := by
        intro j
        rw [Nat.div_div_eq_div_mul, ← pow_succ']
      have hb' : ∀ j, j < k → isBudgetExceededResult (estimate (start / 2 / 2 ^ j) maxGas) := by
        intro j hj
        rw [hdiv j]
        exact hb (j + 1) (by omega)
      have hok' : estimate (start / 2 / 2 ^ k) maxGas = .ok cost := by
        rw [hdiv k]
        exact hok
      have hrec := ih (start / 2) cost hb' hok' f (by omega)
      rw [hdiv k] at hrec
      simp [sizeLoop, he, hinc, hrec]

/-- C1: the spec says that when every probe of the halving sequence down to
0 signals budget-exceeded, the sizer fails with `BatchUnsizable`, in
particular terminating.  The source has no such exit: once `iterations`
reaches 0, `Math.floor(0 / 2)` is 0 again and the loop re-estimates 0
forever, so under the claim's hypothesis the loop yields no result at any
fuel — it neither fails for the cycle nor terminates. -/
theorem sizerNeverFailsBatchUnsizable
    (estimate : Nat → Nat → Except String Nat) (defaultIterations maxGas : Nat)
    (_h1 : 1 ≤ defaultIterations) (_h2 : 0 < maxGas)
    (hb : ∀ n, isBudgetExceededResult (estimate n maxGas)) :
    ∀ fuel, getGasEstimateAndIterations estimate defaultIterations maxGas fuel = none := by
  have main : ∀ fuel iterations, sizeLoop estimate maxGas fuel iterations = none := by
    intro fuel
    induction fuel with
    | zero => intro _; rfl
    | succ f ih =>
      intro its
      obtain ⟨e, he, hinc⟩ := hb its
      simp [sizeLoop, he, hinc, ih]
  intro fuel
  exact main fuel defaultIterations

/-- An estimation capability for which every probe signals budget-exceeded
(the feasibility boundary is below 1). -/
def estAlwaysExceeds : Nat → Nat → Except String Nat :=
  fun _ _ => .error baseFeeExceedsMsg

/-- Witness for the C1 theorem at `defaultIterations = 4`, `maxGas =
7000000`: 20 probes of fuel are not enough to produce anything. -/
theorem sizerNeverFailsBatchUnsizable_witness :
    (1 ≤ 4 ∧ 0 < 7000000) ∧
    getGasEstimateAndIterations estAlwaysExceeds 4 7000000 20 = none := by
  refine ⟨⟨by decide, by decide⟩, ?_⟩
  exact sizerNeverFailsBatchUnsizable estAlwaysExceeds 4 7000000 (by decide) (by decide)
    (fun n => ⟨baseFeeExceedsMsg, rfl, by decide⟩) 20

/-- C2: the sizer halves exactly on budget-exceeded signals and returns the
first successful estimate unchanged: if the probes at
`start / 2 ^ j` signal budget-exceeded for all `j < k` and the probe at
`start / 2 ^ k` returns `cost`, the loop returns
`{iterations := start / 2 ^ k, estimatedCost := cost}` (for any fuel
beyond `k`, i.e. the loop stops there); and an estimation error whose
message is not the budget signal is rethrown immediately, without halving. -/
theorem sizerHalvesExactlyAndPropagates
    (estimate : Nat → Nat → Except String Nat) (maxGas start : Nat) (_h1 : 1 ≤ start) :
    (∀ k cost,
      (∀ j, j < k → isBudgetExceededResult (estimate (start / 2 ^ j) maxGas)) →
      estimate (start / 2 ^ k) maxGas = .ok cost →
      ∀ fuel, k < fuel →
        getGasEstimateAndIterations estimate start maxGas fuel
          = some (.ok ⟨cost, start / 2 ^ k⟩)) ∧
    (∀ e, estimate start maxGas = .error e → strIncludes e baseFeeExceedsMsg = false →
      ∀ fuel, 0 < fuel →
        getGasEstimateAndIterations estimate start maxGas fuel = some (.error e)) := by
  constructor
  · intro k cost hb hok fuel hf
    exact sizeLoop_ok_of_halvings estimate maxGas k start cost hb hok fuel hf
  · intro e he hninc fuel hf
    match fuel, hf with
    | f + 1, _ => simp [getGasEstimateAndIterations, sizeLoop, he, hninc]

/-- Scenario C's estimation capability: 100 iterations exceed the budget,
50 estimate to 400000 gas. -/
def estScenarioC : Nat → Nat → Except String Nat :=
  fun n _ => if n ≤ 50 then .ok 400000 else .error baseFeeExceedsMsg

/-- Witness for the C2 theorem: Scenario C — the probe at 100 signals
budget-exceeded, the probe at 50 succeeds with 400000, and the sizer
returns `{iterations := 50, estimatedCost := 400000}`. -/
theorem sizerHalvesExactlyAndPropagates_witness :
    getGasEstimateAndIterations estScenarioC 100 7000000 3 = some (.ok ⟨400000, 50⟩) := by
  have h := (sizerHalvesExactlyAndPropagates estScenarioC 7000000 100 (by decide)).1 1 400000
    (fun j hj =>
      match j, hj with
      | 0, _ => ⟨baseFeeExceedsMsg, rfl, by decide⟩)
    rfl 3 (by decide)
  exact h

/-- C3 (amended): once a cycle has reached the ceiling check with quote `q`
and ceiling `C`, the submit capability is invoked iff `q ≤ C` *and* the
nonce fetch that sits between the check and the submission succeeds (the
original claim's plain `iff q ≤ C` fails when the nonce fetch throws);
when `q > C` the cycle takes the skip branch: no submission call at all
and a poll-interval sleep before the next cycle. -/
theorem ceilingCheckGovernsSubmission
    (env : Env) (defaultIterations maxGas maxGasPrice fuel : Nat)
    (batch : SizedBatch) (q : Nat)
    (hpend : env.hasPendingActions = .ok true)
    (hsize : getGasEstimateAndIterations env.estimate defaultIterations maxGas fuel
      = some (.ok batch))
    (hq : env.getGasPrice = .ok q) :
    ((∃ r, runCycle env defaultIterations maxGas maxGasPrice fuel = some r ∧
        r.submitCalls ≠ [])
      ↔ (q ≤ maxGasPrice ∧ ∃ n, env.getTransactionCount = .ok n)) ∧
    (maxGasPrice < q →
      runCycle env defaultIterations maxGas maxGasPrice fuel = some ⟨.skipped, [], true⟩) := by
  by_cases hlt : maxGasPrice < q
  · have hrun : runCycle env defaultIterations maxGas maxGasPrice fuel
        = some ⟨.skipped, [], true⟩ := by
      simp [runCycle, hpend, hsize, hq, hlt]
    refine ⟨⟨?_, ?_⟩, fun _ => hrun⟩
    · rintro ⟨r, hr, hne⟩
      rw [hrun] at hr
      cases Option.some.inj hr
      exact absurd rfl hne
    · rintro ⟨hle, -⟩
      omega
  · rcases hn : env.getTransactionCount with e | n
    · have hrun : runCycle env defaultIterations maxGas maxGasPrice fuel
          = some ⟨.failed e, [], true⟩ := by
        simp [runCycle, hpend, hsize, hq, hlt, hn]
      refine ⟨⟨?_, ?_⟩, fun h => absurd h hlt⟩
      · rintro ⟨r, hr, hne⟩
        rw [hrun] at hr
        cases Option.some.inj hr
        exact absurd rfl hne
      · rintro ⟨-, n, hok⟩
        cases hok
    · refine ⟨⟨fun _ => ⟨by omega, n, rfl⟩, ?_⟩, fun h => absurd h hlt⟩
      rintro ⟨-, -⟩
      rcases hs : env.processPendingActions batch.iterations
          (increasedGasEstimate batch.gasEstimate) q n with e | u
      · exact ⟨⟨.failed e,
          [⟨batch.iterations, increasedGasEstimate batch.gasEstimate, q, n⟩], true⟩,
          by simp [runCycle, hpend, hsize, hq, hlt, hn, hs], by simp⟩
      · exact ⟨⟨.submitted u,
          [⟨batch.iterations, increasedGasEstimate batch.gasEstimate, q, n⟩], false⟩,
          by simp [runCycle, hpend, hsize, hq, hlt, hn, hs], by simp⟩

/-- A cycle in which the quote (20) is within the ceiling (30) but the
nonce fetch throws. -/
def envNonceFails : Env :=
  ⟨.ok true, fun _ _ => .ok 300000, .ok 20, .error "nonce fetch failed",
   fun _ _ _ _ => .ok 0⟩

/-- C3 counterexample: a cycle reaching the ceiling check with quote 20 and
ceiling 30 — within the ceiling — in which the submit capability is called
zero times, because the nonce fetch between the check and the submission
throws; the claimed equivalence `submit invoked ↔ q ≤ C` is false there. -/
theorem ceilingCheck_counterexample :
    ¬ ((∃ r, runCycle envNonceFails 100 1000000 30 1 = some r ∧ r.submitCalls ≠ [])
        ↔ (20 : Nat) ≤ 30) := by
  intro h
  obtain ⟨r, hr, hne⟩ := h.mpr (by decide)
  have hrun : runCycle envNonceFails 100 1000000 30 1
      = some ⟨.failed "nonce fetch failed", [], true⟩ := rfl
  rw [hrun] at hr
  cases Option.some.inj hr
  exact hne rfl

/-- A cycle whose quote (35) exceeds the ceiling (30): Scenario E. -/
def envPriceTooHigh : Env :=
  ⟨.ok true, fun _ _ => .ok 300000, .ok 35, .ok 7, fun _ _ _ _ => .ok 0⟩

/-- Witness for the amended C3 theorem: quote 35 over ceiling 30 ends the
cycle as skipped, with no submission call and a sleep. -/
theorem ceilingCheckGovernsSubmission_witness :
    runCycle envPriceTooHigh 100 1000000 30 1 = some ⟨.skipped, [], true⟩ :=
  (ceilingCheckGovernsSubmission envPriceTooHigh 100 1000000 30 1 ⟨300000, 100⟩ 35
    rfl rfl rfl).2 (by decide)

/-- C7: when a cycle submits, the submission call carries exactly the sized
iteration count, a cost limit equal to the sizer's estimate increased by
10% and floored (`Math.floor(gasEstimate * 1.1)`, i.e. `⌊11·g/10⌋`), the
fetched price, and the sequence number fetched for the signing address in
this same cycle. -/
theorem submitCalledWithSizedArgs
    (env : Env) (defaultIterations maxGas maxGasPrice fuel : Nat)
    (batch : SizedBatch) (q n : Nat)
    (hpend : env.hasPendingActions = .ok true)
    (hsize : getGasEstimateAndIterations env.estimate defaultIterations maxGas fuel
      = some (.ok batch))
    (hq : env.getGasPrice = .ok q) (hle : q ≤ maxGasPrice)
    (hn : env.getTransactionCount = .ok n) :
    (∃ r, runCycle env defaultIterations maxGas maxGasPrice fuel = some r ∧
        r.submitCalls = [⟨batch.iterations, increasedGasEstimate batch.gasEstimate, q, n⟩]) ∧
    increasedGasEstimate batch.gasEstimate = batch.gasEstimate * 11 / 10 := by
  refine ⟨?_, rfl⟩
  have hlt : ¬ maxGasPrice < q := by omega
  rcases hs : env.processPendingActions batch.iterations
      (increasedGasEstimate batch.gasEstimate) q n with e | u
  · exact ⟨⟨.failed e,
      [⟨batch.iterations, increasedGasEstimate batch.gasEstimate, q, n⟩], true⟩,
      by simp [runCycle, hpend, hsize, hq, hlt, hn, hs], rfl⟩
  · exact ⟨⟨.submitted u,
      [⟨batch.iterations, increasedGasEstimate batch.gasEstimate, q, n⟩], false⟩,
      by simp [runCycle, hpend, hsize, hq, hlt, hn, hs], rfl⟩

/-- Scenario B's environment: the estimate succeeds at 500000 for the
default 100 iterations, the price is 20, the nonce 5. -/
def envScenarioB : Env :=
  ⟨.ok true, fun _ _ => .ok 500000, .ok 20, .ok 5, fun _ _ _ _ => .ok 499999⟩

/-- Witness for the C7 theorem: Scenario B — estimate 500000 yields a cost
limit of 550000 (10% margin, floored), and the submission is called with
iterations 100, gas 550000, price 20, nonce 5. -/
theorem submitCalledWithSizedArgs_witness :
    (∃ r, runCycle envScenarioB 100 8000000 30 1 = some r ∧
        r.submitCalls = [⟨100, 550000, 20, 5⟩]) ∧
    increasedGasEstimate 500000 = 550000 := by
  have h := submitCalledWithSizedArgs envScenarioB 100 8000000 30 1 ⟨500000, 100⟩ 20 5
    rfl rfl rfl (by decide) rfl
  exact ⟨h.1, rfl⟩

/-- C6 (amended): after a successful submission in the historical loop: if
the `PendingActionsProcessed` event is present in the transaction logs, the
flag becomes the negation of its `finished` field; if it is absent, only an
error is logged — the cycle does not fail — and the flag is left `true`
("assume more work remains"); but with the flag still `true` the next
cycle goes straight back to processing and performs zero pending-work
predicate queries (when its own processing succeeds), instead of
re-checking the predicate. -/
theorem completionSignalHandling
    (env : OldEnv) (g p : Nat) (logs : List TxLog)
    (hest : env.estimateGas = .ok g) (hpr : env.getGasPrice = .ok p)
    (hsub : env.submit g p = .ok logs) :
    (∀ ev, findPendingActionsEvent logs = some ev →
      oldCycle env true = .next (!ev.finished) 0 1 false) ∧
    (findPendingActionsEvent logs = none →
      oldCycle env true = .next true 0 1 false ∧
      ∀ env2 g2 p2 logs2, env2.estimateGas = .ok g2 → env2.getGasPrice = .ok p2 →
        env2.submit g2 p2 = .ok logs2 →
        ∃ flag2, oldCycle env2 true = .next flag2 0 1 false) := by
  constructor
  · intro ev hev
    simp [oldCycle, hest, hpr, hsub, hev]
  · intro habs
    refine ⟨by simp [oldCycle, hest, hpr, hsub, habs], ?_⟩
    intro env2 g2 p2 logs2 h2 h3 h4
    rcases hev2 : findPendingActionsEvent logs2 with _ | ev2
    · exact ⟨true, by simp [oldCycle, h2, h3, h4, hev2]⟩
    · exact ⟨!ev2.finished, by simp [oldCycle, h2, h3, h4, hev2]⟩

/-- A historical-loop cycle whose submission succeeds and reports
`finished = true` in the completion event. -/
def envFinishedTrue : OldEnv :=
  ⟨.ok 100000, .ok 20, fun _ _ => .ok [⟨pendingActionsProcessedEvent, true⟩],
   .ok true, .ok true⟩

/-- Witness for the amended C6 theorem: the event is present with
`finished = true`, so the flag becomes `false`. -/
theorem completionSignalHandling_witness :
    oldCycle envFinishedTrue true = .next false 0 1 false :=
  (completionSignalHandling envFinishedTrue 100000 20
    [⟨pendingActionsProcessedEvent, true⟩] rfl rfl rfl).1
    ⟨pendingActionsProcessedEvent, true⟩ rfl

/-- A historical-loop cycle whose submission succeeds with empty
transaction logs: the completion signal is absent. -/
def envSignalAbsent : OldEnv :=
  ⟨.ok 100000, .ok 20, fun _ _ => .ok [], .ok true, .ok true⟩

/-- C6 counterexample: the submission succeeds but the completion event is
absent (`tx.logs = []`).  The cycle leaves the flag `true`; the next cycle
is again `oldCycle envSignalAbsent true`, and its predicate-query count is
0 — the pending-work predicate is *not* re-checked on the next cycle, so
the claim's "re-checking the pending-work predicate on the next cycle" is
false at this input. -/
theorem completionSignal_counterexample :
    oldCycle envSignalAbsent true = .next true 0 1 false ∧
    OldStep.predCalls (oldCycle envSignalAbsent true) = some 0 :=
  ⟨rfl, rfl⟩

/-- Every surviving cycle of the current loop that did not submit went
through `sleep(POLL_INTERVAL_MILLIS)` before the next cycle. -/
theorem runCycle_sleeps_unless_submitted
    (env : Env) (d mg mp fuel : Nat) (r : CycleResult)
    (hr : runCycle env d mg mp fuel = some r) :
    r.slept = true ∨ ∃ u, r.outcome = .submitted u := by
  rcases hp : env.hasPendingActions with e | b
  · have hval : runCycle env d mg mp fuel = some ⟨.failed e, [], true⟩ := by
      simp [runCycle, hp]
    rw [hval] at hr
    cases Option.some.inj hr
    left; rfl
  · cases b
    · have hval : runCycle env d mg mp fuel = some ⟨.idle, [], true⟩ := by
        simp [runCycle, hp]
      rw [hval] at hr
      cases Option.some.inj hr
      left; rfl
    · rcases hs : getGasEstimateAndIterations env.estimate d mg fuel with _ | res
      · have hval : runCycle env d mg mp fuel = none := by
          simp [runCycle, hp, hs]
        rw [hval] at hr
        cases hr
      · rcases res with e | batch
        · have hval : runCycle env d mg mp fuel = some ⟨.failed e, [], true⟩ := by
            simp [runCycle, hp, hs]
          rw [hval] at hr
          cases Option.some.inj hr
          left; rfl
        · rcases hq : env.getGasPrice with e | q
          · have hval : runCycle env d mg mp fuel = some ⟨.failed e, [], true⟩ := by
              simp [runCycle, hp, hs, hq]
            rw [hval] at hr
            cases Option.some.inj hr
            left; rfl
          · by_cases hlt : mp < q
            · have hval : runCycle env d mg mp fuel = some ⟨.skipped, [], true⟩ := by
                simp [runCycle, hp, hs, hq, hlt]
              rw [hval] at hr
              cases Option.some.inj hr
              left; rfl
            · rcases hn : env.getTransactionCount with e | n
              · have hval : runCycle env d mg mp fuel = some ⟨.failed e, [], true⟩ := by
                  simp [runCycle, hp, hs, hq, hlt, hn]
                rw [hval] at hr
                cases Option.some.inj hr
                left; rfl
              · rcases hsub : env.processPendingActions batch.iterations
                    (increasedGasEstimate batch.gasEstimate) q n with e | u
                · have hval : runCycle env d mg mp fuel = some ⟨.failed e,
                      [⟨batch.iterations, increasedGasEstimate batch.gasEstimate, q, n⟩],
                      true⟩ := by
                    simp [runCycle, hp, hs, hq, hlt, hn, hsub]
                  rw [hval] at hr
                  cases Option.some.inj hr
                  left; rfl
                · have hval : runCycle env d mg mp fuel = some ⟨.submitted u,
                      [⟨batch.iterations, increasedGasEstimate batch.gasEstimate, q, n⟩],
                      false⟩ := by
                    simp [runCycle, hp, hs, hq, hlt, hn, hsub]
                  rw [hval] at hr
                  cases Option.some.inj hr
                  right
                  exact ⟨u, rfl⟩

/-- C9 (amended): inside one cycle, every expected error (pending-check
failure, estimation failure, price-fetch failure, submission failure) is
caught, logged, followed by a poll-interval sleep, and the pending flag is
re-derived from the remote predicate — *provided* the re-derivation query
performed during recovery succeeds; in the historical loop that trailing
query sits outside any try, so its own failure escapes and terminates the
process (see the counterexample).  In the current loop every non-submitting
cycle outcome is followed by the poll-interval sleep, and the flag is
re-derived at the top of every cycle by construction. -/
theorem errorsCaughtExceptRecoveryQuery
    (env : OldEnv) (b : Bool) (hp : env.predicate1 = .ok b) :
    (∀ flag, ∃ f pc sc sl, oldCycle env flag = .next f pc sc sl) ∧
    (∀ e, env.estimateGas = .error e → oldCycle env true = .next b 1 0 true) ∧
    (∀ g e, env.estimateGas = .ok g → env.getGasPrice = .error e →
      oldCycle env true = .next b 1 0 true) ∧
    (∀ g p e, env.estimateGas = .ok g → env.getGasPrice = .ok p →
      env.submit g p = .error e → oldCycle env true = .next b 1 1 true) ∧
    (oldCycle env false = .next b 1 0 true) ∧
    (∀ env2 d mg mp fuel r, runCycle env2 d mg mp fuel = some r →
      (∀ u, r.outcome ≠ .submitted u) → r.slept = true) := by
  refine ⟨?_, ?_, ?_, ?_, ?_, ?_⟩
  · intro flag
    cases flag
    · exact ⟨b, 1, 0, true, by simp [oldCycle, hp]⟩
    · rcases hest : env.estimateGas with e | g
      · exact ⟨b, 1, 0, true, by simp [oldCycle, hest, oldCatch, hp]⟩
      · rcases hpr : env.getGasPrice with e | p
        · exact ⟨b, 1, 0, true, by simp [oldCycle, hest, hpr, oldCatch, hp]⟩
        · rcases hsub : env.submit g p with e | logs
          · exact ⟨b, 1, 1, true, by simp [oldCycle, hest, hpr, hsub, oldCatch, hp]⟩
          · rcases hev : findPendingActionsEvent logs with _ | ev
            · exact ⟨true, 0, 1, false, by simp [oldCycle, hest, hpr, hsub, hev]⟩
            · exact ⟨!ev.finished, 0, 1, false, by simp [oldCycle, hest, hpr, hsub, hev]⟩
  · intro e hest
    simp [oldCycle, hest, oldCatch, hp]
  · intro g e hest hpr
    simp [oldCycle, hest, hpr, oldCatch, hp]
  · intro g p e hest hpr hsub
    simp [oldCycle, hest, hpr, hsub, oldCatch, hp]
  · simp [oldCycle, hp]
  · intro env2 d mg mp fuel r hr hns
    rcases runCycle_sleeps_unless_submitted env2 d mg mp fuel r hr with h | ⟨u, hu⟩
    · exact h
    · exact absurd hu (hns u)

/-- A historical-loop cycle in which the estimation throws and the
predicate query performed by the catch handler throws as well. -/
def envRecoveryDies : OldEnv :=
  ⟨.error "rpc down", .ok 20, fun _ _ => .ok [], .error "node unreachable", .ok true⟩

/-- C9 counterexample: the estimation throws (an expected in-cycle error);
the catch handler sleeps and then re-derives the flag with
`await pooledStaking.hasPendingActions()` outside any try (src/index.js
line 221); that query throws too, the error escapes the loop, `init()`
rejects, and lines 227-231 call `process.exit(1)` — an expected error
terminated the process, contrary to the claim. -/
theorem errorEscape_counterexample :
    oldCycle envRecoveryDies true = .crashed "node unreachable" := rfl

/-- A historical-loop cycle in which the estimation throws but the
recovery predicate query answers `true`. -/
def envEstimateFails : OldEnv :=
  ⟨.error "rpc down", .ok 20, fun _ _ => .ok [], .ok true, .ok true⟩

/-- Witness for the amended C9 theorem: the estimation error is caught, the
cycle survives, sleeps, and the flag is re-derived from the predicate. -/
theorem errorsCaughtExceptRecoveryQuery_witness :
    oldCycle envEstimateFails true = .next true 1 0 true :=
  (errorsCaughtExceptRecoveryQuery envEstimateFails true rfl).2.1 "rpc down" rfl

/-- C4: the claim describes primary-then-single-fallback with a
`PriceFetchFailed` failure only when both sources fail.  In the gas-price
module actually exported to src/index.js this never happens: every call to
`fetchGasPrices` throws `ReferenceError` on its first line — `GASNOW_URL`
is bound nowhere in the module (and `to` is not exported by utils.js) — so
neither the primary nor the fallback source is ever contacted, whatever
the sources would have answered, and the error thrown is not the
`'Gas price fetching failed'` one. -/
theorem fetchGasPrices_neverContactsSources
    (primary : Except String GasNowResp) (fallback : Except String EgsData) :
    fetchGasPrices primary fallback
      = ⟨0, 0, .error "ReferenceError: GASNOW_URL is not defined"⟩ ∧
    (fetchGasPrices primary fallback).primaryCalls = 0 ∧
    (fetchGasPrices primary fallback).fallbackCalls = 0 :=
  ⟨rfl, rfl, rfl⟩

/-- C5: Etherchain answers `fast = 21`, `standard = 20` (gwei).  part_000
computes the above-average price `floor(21 + 20) / 2 = 20.5` gwei and
multiplies by its `GWEI_IN_WEI` literal `10e9` = 10^10, returning
205000000000 — ten times the wei value 20500000000 of 20.5 gwei at the
claimed 10^9 wei per gwei.  The quote is therefore not expressed in wei
(the sibling files src/index.js and src/gas-price.js write the same
constant as `1e9`, so `10e9` is a slip). -/
theorem part000QuoteNotInWei :
    getGasPricePart000 (.ok ⟨21, 20⟩) (.error "unused") = .ok 205000000000 ∧
    (41 / 2 : ℚ) * 10 ^ 9 = 20500000000 ∧
    (205000000000 : ℚ) ≠ 20500000000 := by
  refine ⟨?_, by norm_num, by norm_num⟩
  simp [getGasPricePart000, parseIntQ, gweiInWeiPart000, ratFloor_eq_floor]
  norm_num

/-- C8: the derived above-standard level equals the spec's formula
`floor((fast + standard)) / 2` — the floor applied to the sum, then the
division by 2 — for every price table; concretely at `fast = 21`,
`standard = 20` it is `41/2`, a half-integer, which the other reading
`floor((fast + standard) / 2)` could never produce. -/
theorem aboveStandardIsFloorOfSumHalved :
    (∀ prices : GasPrices,
      getAboveStandardPrice prices
        = aboveStandardSpecFormula prices.fast prices.standard) ∧
    getAboveStandardPrice ⟨0, 21, 20, 0⟩ = 41 / 2 ∧
    (41 / 2 : ℚ) ≠ ((Int.floor ((21 + 20 : ℚ) / 2) : ℤ) : ℚ) := by
  refine ⟨fun prices => ?_, ?_, ?_⟩
  · simp [getAboveStandardPrice, aboveStandardSpecFormula, ratFloor_eq_floor]
  · simp [getAboveStandardPrice, ratFloor_eq_floor]
  · norm_num

/-- C10: `getEnv` returns the environment value when it is a non-empty
string; when the variable is unset or set to the empty string it returns
the fallback if the fallback is truthy and otherwise throws
`Missing env var: <key>`; a set-but-empty variable behaves exactly like an
unset one, and the default fallback `false` never suppresses the error. -/
theorem getEnvSemantics (env : String → JSVal) (key : String) (fallback : JSVal) :
    (∀ s, env key = .str s → s ≠ "" → getEnv env key fallback = .ok (.str s)) ∧
    (env key = .undef ∨ env key = .str "" →
      (truthy fallback = true → getEnv env key fallback = .ok fallback) ∧
      (truthy fallback = false →
        getEnv env key fallback = .error ("Missing env var: " ++ key)) ∧
      getEnv env key fallback
        = getEnv (fun k => if k = key then .undef else env k) key fallback) ∧
    (env key = .undef ∨ env key = .str "" →
      getEnv env key (.bool false) = .error ("Missing env var: " ++ key)) := by
  refine ⟨?_, ?_, ?_⟩
  · intro s hs hne
    have hem : s.isEmpty = false := by
      cases h : s.isEmpty
      · rfl
      · exact absurd ((String.isEmpty_iff s).mp h) hne
    simp [getEnv, hs, truthy, hem]
  · intro hk
    have ht : truthy (env key) = false := by
      rcases hk with h | h <;> rw [h] <;> rfl
    refine ⟨?_, ?_, ?_⟩
    · intro hf
      simp [getEnv, ht, hf]
    · intro hf
      simp [getEnv, ht, hf]
    · simp [getEnv, ht, show truthy .undef = false from rfl]
  · intro hk
    have ht : truthy (env key) = false := by
      rcases hk with h | h <;> rw [h] <;> rfl
    simp [getEnv, ht, show truthy (.bool false) = false from rfl]

/-- Witness for the C10 theorem: with `PRIVATE_KEY` unset and the default
fallback `false`, `getEnv` throws `Missing env var: PRIVATE_KEY`. -/
theorem getEnvSemantics_witness :
    getEnv (fun _ => .undef) "PRIVATE_KEY" (.bool false)
      = .error ("Missing env var: " ++ "PRIVATE_KEY") :=
  (getEnvSemantics (fun _ => .undef) "PRIVATE_KEY" (.bool false)).2.2 (Or.inl rfl)

end PooledStaking
